import Mathlib

/-!
Verification of the PriorityX analytical engine.

Shallow embedding of the analytical core of the `priorityx` package:
quadrant classification, score standardization, the trend-fitter fallback
path, cumulative movement tracking, transition extraction, driver
attribution, per-entity metric aggregation, and the example incident
generator.  Numeric series are embedded as lists of rationals (exact
arithmetic stand-in for the float pipeline); standardized scores live in
`ℝ` because the population standard deviation is a real square root.
Components whose Python sources are `priorityx.core` / `priorityx.tracking`
are modelled from the specification, as flagged in their doc comments.
-/

namespace PriorityX

/-- The four priority quadrants.  The type has exactly four constructors:
there is no "unclassified" value. -/
inductive Quadrant where
  | Q1
  | Q2
  | Q3
  | Q4
  deriving DecidableEq, Repr

/-- Modelled from the spec: `classify(x, y)` of §4.3 (the Python module
`priorityx.core.quadrants` is not under `src/`).  Sign of `x` (volume axis)
and `y` (growth axis) around zero, boundary values assigned to the `≥ 0`
side: `x≥0,y≥0 → Q1`, `x<0,y≥0 → Q2`, `x<0,y<0 → Q3`, `x≥0,y<0 → Q4`. -/
def classify {α : Type} [LinearOrderedField α] (x y : α) : Quadrant :=
  if 0 ≤ x then
    if 0 ≤ y then Quadrant.Q1 else Quadrant.Q4
  else
    if 0 ≤ y then Quadrant.Q2 else Quadrant.Q3

/-- Population mean of a series (`series.mean()`); `0` on the empty list
(the embedding never consults that value: `_zscore` guards emptiness). -/
def popMean (s : List ℚ) : ℚ := s.sum / s.length

/-- Population variance (`series.std(ddof=0) ** 2`). -/
def popVar (s : List ℚ) : ℚ :=
  (s.map (fun v => (v - popMean s) ^ 2)).sum / s.length

/-- Population standard deviation, `series.std(ddof=0)`, as a real number. -/
noncomputable def popStd (s : List ℚ) : ℝ := Real.sqrt ((popVar s : ℚ) : ℝ)

/-- Embeds `_zscore` from `src/src/priorityx/metrics.py` (lines 135-144):
empty series returned as-is; zero (or undefined) population standard
deviation yields an all-zero series of the same length; otherwise the
elementwise `(v - mean) / std`.  Exact rationals model the float series, so
the `pd.isna(std)` disjunct of the source's guard never fires. -/
noncomputable def _zscore (s : List ℚ) : List ℝ :=
  if s = [] then []
  else if popStd s = 0 then List.replicate s.length 0
  else s.map (fun v : ℚ => ((v : ℝ) - (popMean s : ℝ)) / popStd s)

/-- One row of the merged per-entity table built by `aggregate_entity_metrics`
(`src/src/priorityx/metrics.py`): the two summed magnitude columns, with
`none` modelling a pandas missing value (`NaN` after an outer merge). -/
structure MetricsRow where
  entity : String
  total_primary : Option ℚ
  total_secondary : Option ℚ
  deriving DecidableEq, Repr

/-- Embeds the row lambda of `aggregate_entity_metrics`
(`src/src/priorityx/metrics.py` lines 123-129): `total_secondary /
total_primary` when both are non-null and `total_primary > 0`, else `NaN`
(modelled as `none`). -/
def ratioFromTotals (tp ts : Option ℚ) : Option ℚ :=
  match ts, tp with
  | some s, some p => if 0 < p then some (s / p) else none
  | _, _ => none

/-- Embeds the `out.apply(..., axis=1)` step of `aggregate_entity_metrics`
(lines 122-130): attach the `secondary_to_primary_ratio` value to each row. -/
def addRatioColumn (rows : List MetricsRow) : List (MetricsRow × Option ℚ) :=
  rows.map (fun r => (r, ratioFromTotals r.total_primary r.total_secondary))

/-- One entity's ordered period-indexed count series (§3 ObservationSeries):
entry `t` of `counts` is the event count of ordinal time index `t`. -/
structure EntitySeries where
  entity : String
  counts : List ℚ
  deriving DecidableEq, Repr

/-- Total observation count of one entity across its series. -/
def totalCount (e : EntitySeries) : ℚ := e.counts.sum

/-- Modelled from the spec: the fallback slope of §4.2 — simple
ordinary-least-squares slope of count versus time index `t = 0..T-1`
(`priorityx.core.glmm` is not under `src/`).  A series with a degenerate
design (fewer than two points) gets slope `0`. -/
def olsSlope (ys : List ℚ) : ℚ :=
  let n : ℚ := ys.length
  let ts : List ℚ := (List.range ys.length).map (fun t => (t : ℚ))
  let tbar : ℚ := ts.sum / n
  let ybar : ℚ := ys.sum / n
  let den : ℚ := (ts.map (fun t => (t - tbar) ^ 2)).sum
  let num : ℚ := ((ts.zip ys).map (fun p => (p.1 - tbar) * (p.2 - ybar))).sum
  if den = 0 then 0 else num / den

/-- Modelled from the spec: fitter configuration (§4.2, §9).  The
mixed-effects regression itself (`priorityx.core.glmm`, not under `src/`) is
abstracted as `fullModel`: `some (a, b)` is a converged fit's raw
(intercept, slope) estimate pair for one entity, `none` is non-convergence
(singular design, zero variance, optimizer failure). -/
structure FitConfig where
  minObservations : ℕ
  fullModel : EntitySeries → Option (ℚ × ℚ)

/-- Modelled from the spec: the two-path per-entity estimator of §4.2/§9 —
raw (pre-standardization) scores plus the `reliable` flag.  Entities with
fewer than `minObservations` periods, or whose full regression does not
converge, take the fallback `(total count, OLS slope, reliable := false)`;
converged entities keep the full-model estimates with `reliable := true`. -/
def rawFit (cfg : FitConfig) (e : EntitySeries) : ℚ × ℚ × Bool :=
  if e.counts.length < cfg.minObservations then
    (totalCount e, olsSlope e.counts, false)
  else
    match cfg.fullModel e with
    | some (a, b) => (a, b, true)
    | none => (totalCount e, olsSlope e.counts, false)

/-- One row of the results table (§3 FitResult, §6 results contract). -/
structure FitResult where
  entity : String
  intercept_score : ℝ
  slope_score : ℝ
  count : ℚ
  reliable : Bool
  quadrant : Quadrant

/-- Modelled from the spec: `fit_priority_matrix` (`priorityx.core.glmm` is
not under `src/`) — fit every entity by the two-path estimator, standardize
both raw score columns across the population with `_zscore`, and classify
each standardized pair (§4.2, §4.3, §6). -/
noncomputable def fit_priority_matrix (cfg : FitConfig) (es : List EntitySeries) :
    List FitResult :=
  let raws := es.map (rawFit cfg)
  let zx := _zscore (raws.map (fun p => p.1))
  let zy := _zscore (raws.map (fun p => p.2.1))
  List.zipWith
    (fun (er : EntitySeries × ℚ × ℚ × Bool) (xy : ℝ × ℝ) =>
      { entity := er.1.entity
        intercept_score := xy.1
        slope_score := xy.2
        count := totalCount er.1
        reliable := er.2.2.2
        quadrant := classify xy.1 xy.2 })
    (es.zip raws) (zx.zip zy)

/-- Embeds `fit = fit_priority_matrix` from `src/src/priorityx/api.py`
line 26: a thin alias for the common fit path. -/
noncomputable def fit : FitConfig → List EntitySeries → List FitResult :=
  fit_priority_matrix

/-- One row of the movement table (§3 TrajectoryPoint): periods are ordinal
indices into the canonical ordered period list. -/
structure TrajectoryPoint where
  entity : String
  period : ℕ
  period_x : ℚ
  period_y : ℚ
  period_quadrant : Quadrant
  period_count : ℚ
  cumulative_count : ℚ
  global_quadrant : Quadrant
  deriving DecidableEq, Repr

/-- Modelled from the spec: one entity's trajectory in
`track_cumulative_movement` (§4.4; `priorityx.tracking.movement` is not
under `src/`).  `fitScores` abstracts the §4.2 fit as a map from a count
series to its standardized (x, y) score pair; each period re-runs it on the
expanding prefix, and `global_quadrant` comes from the one full-window fit. -/
def trackEntity (fitScores : List ℚ → ℚ × ℚ) (e : EntitySeries) :
    List TrajectoryPoint :=
  let fullPair := fitScores e.counts
  let gq := classify fullPair.1 fullPair.2
  (List.range e.counts.length).map (fun i =>
    let pre := e.counts.take (i + 1)
    let c := fitScores pre
    { entity := e.entity
      period := i
      period_x := c.1
      period_y := c.2
      period_quadrant := classify c.1 c.2
      period_count := e.counts.getD i 0
      cumulative_count := pre.sum
      global_quadrant := gq })

/-- Modelled from the spec: `track_cumulative_movement` (§4.4) — entities
that never reach `min_total_count` over the whole window are excluded
entirely, the rest contribute one trajectory row per period. -/
def track_cumulative_movement (fitScores : List ℚ → ℚ × ℚ)
    (minTotalCount : ℚ) (es : List EntitySeries) : List TrajectoryPoint :=
  (es.filter (fun e => minTotalCount ≤ totalCount e)).flatMap (trackEntity fitScores)

/-- A detected quadrant change (§3 Transition); `from_quarter`/`to_quarter`
are the two adjacent trajectory period indices. -/
structure Transition where
  entity : String
  from_quarter : ℕ
  to_quarter : ℕ
  from_quadrant : Quadrant
  to_quadrant : Quadrant
  deriving DecidableEq, Repr

/-- Modelled from the spec: the §4.5 state machine over one entity's ordered
trajectory (`priorityx.tracking.transitions` is not under `src/`): walk
adjacent row pairs and emit a Transition exactly when the new period's
quadrant differs from the previous one's. -/
def entityTransitions (rows : List TrajectoryPoint) : List Transition :=
  (rows.zip rows.tail).filterMap (fun ab =>
    if ab.1.period_quadrant ≠ ab.2.period_quadrant then
      some { entity := ab.2.entity
             from_quarter := ab.1.period
             to_quarter := ab.2.period
             from_quadrant := ab.1.period_quadrant
             to_quadrant := ab.2.period_quadrant }
    else none)

/-- Modelled from the spec: `extract_transitions` (§4.5) — scan every
entity's trajectory independently and collect the emitted transitions. -/
def extract_transitions (trajectories : List (List TrajectoryPoint)) :
    List Transition :=
  trajectories.flatMap entityTransitions

/-- One raw event row as seen by the driver-attribution engine (§3 Event,
§4.6): the entity column, the period label its timestamp falls in (the
timestamp-to-window bucketing abstracted to its result), one categorical
attribute value and one numeric attribute value. -/
structure Event where
  entity : String
  period : String
  cat : String
  num : ℚ
  deriving DecidableEq, Repr

/-- Modelled from the spec: the raw events of one entity inside one period
window (§4.6; `priorityx.tracking.drivers` is not under `src/`). -/
def windowEvents (events : List Event) (entity period : String) : List Event :=
  events.filter (fun ev => ev.entity = entity ∧ ev.period = period)

/-- Count delta of one categorical value between the two windows (§4.6.2). -/
def catDelta (efrom eto : List Event) (v : String) : ℤ :=
  (eto.countP (fun ev => ev.cat = v) : ℤ) -
    (efrom.countP (fun ev => ev.cat = v) : ℤ)

/-- The distinct values of the categorical dimension seen in either window. -/
def catValues (efrom eto : List Event) : List String :=
  ((efrom ++ eto).map Event.cat).dedup

/-- Modelled from the spec: numeric binning with edges computed once and
applied identically to both windows (§4.6.3) — the index of the first of the
`edges.length - 1` bins `[eᵢ, eᵢ₊₁)` containing `x`, the last bin closed on
the right; `none` when `x` lies outside every bin. -/
def binIndex (edges : List ℚ) (x : ℚ) : Option ℕ :=
  (List.range (edges.length - 1)).find? (fun i =>
    match edges[i]?, edges[i + 1]? with
    | some lo, some hi =>
        decide (lo ≤ x) &&
          (decide (x < hi) || (decide (i + 2 = edges.length) && decide (x = hi)))
    | _, _ => false)

/-- Count delta of one numeric bin between the two windows (§4.6.3). -/
def binDelta (edges : List ℚ) (efrom eto : List Event) (i : ℕ) : ℤ :=
  (eto.countP (fun ev => binIndex edges ev.num = some i) : ℤ) -
    (efrom.countP (fun ev => binIndex edges ev.num = some i) : ℤ)

/-- The §4.6 driver report: window counts, total count delta, the
per-categorical-value delta breakdown, the per-numeric-bin delta breakdown,
and the bin edges used for both windows. -/
structure DriverAnalysis where
  count_from : ℕ
  count_to : ℕ
  count_delta : ℤ
  cat_drivers : List (String × ℤ)
  num_drivers : List (ℕ × ℤ)
  bin_edges : List ℚ
  deriving DecidableEq, Repr

/-- Modelled from the spec: the §4.6 driver-attribution core for one entity
and one (period_from, period_to) window pair, with one categorical and one
binned-numeric dimension. -/
def driverCore (events : List Event) (entity pfrom pto : String)
    (edges : List ℚ) : DriverAnalysis :=
  let ef := windowEvents events entity pfrom
  let et := windowEvents events entity pto
  { count_from := ef.length
    count_to := et.length
    count_delta := (et.length : ℤ) - (ef.length : ℤ)
    cat_drivers := (catValues ef et).map (fun v => (v, catDelta ef et v))
    num_drivers :=
      (List.range (edges.length - 1)).map (fun i => (i, binDelta edges ef et i))
    bin_edges := edges }

/-- Modelled from the spec: the `extract_transition_drivers` entry point with
its backward-compatible parameter aliases (§4.6, §9) — the legacy
`quarter_from`/`quarter_to` names are normalized to the canonical
`period_from`/`period_to` before any business logic runs; a window pair left
unresolved on either side is a caller error (`none`). -/
def extract_transition_drivers (events : List Event) (entity : String)
    (period_from period_to quarter_from quarter_to : Option String)
    (edges : List ℚ) : Option DriverAnalysis :=
  match period_from.orElse (fun _ => quarter_from),
      period_to.orElse (fun _ => quarter_to) with
  | some a, some b => some (driverCore events entity a b edges)
  | _, _ => none

/-- One candidate incident ticket from
`src/examples/incidents/generate_incidents.py`; timestamps are modelled in
whole seconds since the epoch day 0. -/
structure Ticket where
  service : String
  opened_at : ℚ
  closed_at : ℚ
  severity : String
  deriving DecidableEq, Repr

/-- Deterministic semantics of the numpy generator used by the example data
generator: `mkGen` embeds `np.random.default_rng(seed)` and each draw
operation is a pure transition on the generator state `σ`, returning the
drawn value(s) and the advanced state. -/
structure RngSpec (σ : Type) where
  mkGen : ℕ → σ
  poisson : ℚ → σ → ℕ × σ
  integersSeconds : ℕ → σ → List ℕ × σ
  choiceSeverities : List (String × ℚ) → ℕ → σ → List String × σ
  lognormal : ℚ → ℚ → σ → ℚ × σ
  choiceIndices : ℕ → ℕ → σ → List ℕ × σ

/-- The randomness-free inputs of the incident generator, abstracted: the
fixed service table and its per-service daily rate curves
(`_payments_rate`, `_fraud_rate`, `_default_rate`), the severity mixes
(`_severity_weights`) and the lognormal duration parameters — all pure
functions of the date/service in the source, with no random state. -/
structure GenEnv where
  services : List String
  rate : String → ℕ → ℚ
  severityWeights : String → ℕ → List (String × ℚ)
  durationParams : String → ℚ × ℚ

/-- Embeds `_clamp` from `src/examples/incidents/generate_incidents.py`. -/
def _clamp (x lo hi : ℚ) : ℚ := min (max x lo) hi

/-- Embeds `_weekly_seasonality`: a fixed weekday weight table indexed by the
day-of-week residue of the absolute day number. -/
def _weekly_seasonality (day : ℕ) : ℚ :=
  [(1.05 : ℚ), 1.10, 1.12, 1.08, 1.00, 0.85, 0.80].getD (day % 7) 1

/-- Embeds `_duration_hours`: one lognormal draw with per-severity
parameters, clamped to `[0.5, 240]` hours. -/
def _duration_hours {σ : Type} (ops : RngSpec σ) (env : GenEnv) (sev : String)
    (g : σ) : ℚ × σ :=
  let p := env.durationParams sev
  let r := ops.lognormal p.1 p.2 g
  (_clamp r.1 (1 / 2) 240, r.2)

/-- Embeds the per-(day, service) body of the `_generate_candidates` loops:
one Poisson draw for the ticket count (`n ≤ 0` short-circuits), then the
opened-second and severity batch draws, then one duration draw per ticket,
all threading the generator state. -/
def genServiceDay {σ : Type} (ops : RngSpec σ) (env : GenEnv) (day : ℕ)
    (service : String) (g : σ) : List Ticket × σ :=
  let lam := _clamp (env.rate service day * _weekly_seasonality day) 0 200
  let pg := ops.poisson lam g
  if pg.1 = 0 then ([], pg.2)
  else
    let sg := ops.integersSeconds pg.1 pg.2
    let vg := ops.choiceSeverities (env.severityWeights service day) pg.1 sg.2
    (sg.1.zip vg.1).foldl
      (fun acc p =>
        let dh := _duration_hours ops env p.2 acc.2
        let opened : ℚ := ((day * 86400 + p.1 : ℕ) : ℚ)
        (acc.1 ++ [⟨service, opened, opened + dh.1 * 3600, p.2⟩], dh.2))
      ([], vg.2)

/-- Embeds `_generate_candidates`: a fresh generator from the explicit seed,
then the day loop over `[start_day, end_day)` with the service loop inside,
accumulating tickets while threading the one generator state. -/
def _generate_candidates {σ : Type} (ops : RngSpec σ) (env : GenEnv)
    (start_day end_day : ℕ) (seed : ℕ) : List Ticket :=
  (((List.range (end_day - start_day)).map (fun d => start_day + d)).foldl
    (fun acc day =>
      env.services.foldl
        (fun acc2 service =>
          let r := genServiceDay ops env day service acc2.2
          (acc2.1 ++ r.1, r.2))
        acc)
    ([], ops.mkGen seed)).1

/-- Embeds the too-few-candidates `while` loop of `generate_incidents_csv`:
regenerate with the derived seed `seed + len(chosen) // 10 + 1` and append up
to the missing count, stopping when enough tickets exist or a regeneration
comes back empty.  Each iteration either stops or grows `chosen`, so
`n_tickets` rounds of fuel are enough; the fuel is not a source of
randomness. -/
def extendLoop {σ : Type} (ops : RngSpec σ) (env : GenEnv)
    (start_day end_day seed n_tickets : ℕ) :
    ℕ → List Ticket → List Ticket
  | 0, chosen => chosen
  | fuel + 1, chosen =>
    if chosen.length < n_tickets then
      let extra := _generate_candidates ops env start_day end_day
        (seed + chosen.length / 10 + 1)
      if extra.isEmpty then chosen
      else
        extendLoop ops env start_day end_day seed n_tickets fuel
          (chosen ++ extra.take (n_tickets - chosen.length))
    else chosen

/-- The `df.sort_values(["opened_at", "service", "ticket_id"])` order:
opened timestamp, then service name; the stable merge sort plays the role of
the insertion-order `ticket_id` tiebreak. -/
def ticketLE (a b : Ticket) : Bool :=
  decide (a.opened_at < b.opened_at) ||
    (decide (a.opened_at = b.opened_at) &&
      (decide (a.service < b.service) || decide (a.service = b.service)))

/-- Embeds `generate_incidents_csv` (the returned DataFrame; the CSV write is
an external side effect of the same rows): generate candidates from the
explicit seed, choose `n_tickets` of them with a second generator freshly
constructed from the same seed (or top up via `extendLoop` when there are too
few), sort, and re-assign the positional `ticket_id`s. -/
def generate_incidents_csv {σ : Type} (ops : RngSpec σ) (env : GenEnv)
    (n_tickets start_day end_day seed : ℕ) : List (ℕ × Ticket) :=
  let candidates := _generate_candidates ops env start_day end_day seed
  let g := ops.mkGen seed
  let chosen :=
    if n_tickets ≤ candidates.length then
      ((ops.choiceIndices candidates.length n_tickets g).1).filterMap
        (fun i => candidates[i]?)
    else
      (extendLoop ops env start_day end_day seed n_tickets n_tickets
        candidates).take n_tickets
  (chosen.mergeSort ticketLE).enum.map (fun p => (p.1 + 1, p.2))

end PriorityX

namespace PriorityX

/-- C1: the quadrant classifier is a pure total deterministic function of
`(x, y)`: `x≥0,y≥0` gives Q1, `x<0,y≥0` gives Q2, `x<0,y<0` gives Q3,
`x≥0,y<0` gives Q4; boundaries with `x=0` or `y=0` land on the `≥0` side;
repeated calls agree and the result is always one of the four quadrants,
never "unclassified". -/
theorem classify_quadrant_cases (x y : ℚ) :
    (0 ≤ x → 0 ≤ y → classify x y = Quadrant.Q1) ∧
    (x < 0 → 0 ≤ y → classify x y = Quadrant.Q2) ∧
    (x < 0 → y < 0 → classify x y = Quadrant.Q3) ∧
    (0 ≤ x → y < 0 → classify x y = Quadrant.Q4) ∧
    classify x y = classify x y ∧
    (classify x y = Quadrant.Q1 ∨ classify x y = Quadrant.Q2 ∨
      classify x y = Quadrant.Q3 ∨ classify x y = Quadrant.Q4) := by
  unfold classify
  rcases le_or_lt 0 x with hx | hx <;> rcases le_or_lt 0 y with hy | hy
  · simp [hx, hy, hx.not_lt, hy.not_lt]
  · simp [hx, hy.not_le, hx.not_lt, hy]
  · simp [hx.not_le, hy, hx, hy.not_lt]
  · simp [hx.not_le, hy.not_le, hx, hy]

/-- Concrete instantiation of `classify_quadrant_cases`: the boundary input
`(0, -1)` is classified on the `x ≥ 0` side, into Q4. -/
theorem classify_quadrant_cases_witness : classify (0 : ℚ) (-1) = Quadrant.Q4 :=
  (classify_quadrant_cases 0 (-1)).2.2.2.1 (by norm_num) (by norm_num)

/-- C2: `_zscore` subtracts the population mean and divides by the population
standard deviation elementwise whenever that standard deviation is nonzero,
and returns an all-zero series of the same length whenever the standard
deviation is zero (which covers the empty series, whose guarded result `[]`
is the all-zero series of length 0), so the division branch never runs on a
zero divisor. -/
theorem zscore_spec (s : List ℚ) :
    (popStd s = 0 → _zscore s = List.replicate s.length 0) ∧
    (popStd s ≠ 0 →
      _zscore s = s.map (fun v : ℚ => ((v : ℝ) - (popMean s : ℝ)) / popStd s)) := by
  by_cases hs : s = []
  · subst hs
    refine ⟨fun _ => by simp [_zscore], fun h => absurd ?_ h⟩
    simp [popStd, popVar, popMean]
  · exact ⟨fun h => by simp [_zscore, hs, h], fun h => by simp [_zscore, hs, h]⟩

/-- Concrete instantiation of `zscore_spec`: the series `[0, 0, 1, 1]` has
standard deviation `1/2 ≠ 0` and standardizes to `[-1, -1, 1, 1]`. -/
theorem zscore_spec_witness :
    popStd [0, 0, 1, 1] ≠ 0 ∧ _zscore [0, 0, 1, 1] = [-1, -1, 1, 1] := by
  have hv : popVar [0, 0, 1, 1] = 1 / 4 := by norm_num [popVar, popMean]
  have hstd : popStd [0, 0, 1, 1] = 1 / 2 := by
    rw [popStd, hv, show ((1 / 4 : ℚ) : ℝ) = (1 / 2) ^ 2 by norm_num]
    exact Real.sqrt_sq (by norm_num)
  have hne : popStd [0, 0, 1, 1] ≠ 0 := by rw [hstd]; norm_num
  refine ⟨hne, ?_⟩
  rw [(zscore_spec [0, 0, 1, 1]).2 hne]
  norm_num [popMean, hstd]

/-- C10: in the output of the ratio step of `aggregate_entity_metrics`, every
row's `secondary_to_primary_ratio` equals `total_secondary / total_primary`
exactly when both totals are non-null and `total_primary > 0`, and is `NaN`
(`none`) otherwise — in particular when `total_primary` is zero, so the
ratio never divides by zero. -/
theorem aggregate_ratio_spec (rows : List MetricsRow) (r : MetricsRow)
    (q : Option ℚ) (hmem : (r, q) ∈ addRatioColumn rows) :
    (∀ p s, r.total_primary = some p → r.total_secondary = some s → 0 < p →
      q = some (s / p)) ∧
    ((¬ ∃ p s, r.total_primary = some p ∧ r.total_secondary = some s ∧ 0 < p) →
      q = none) ∧
    (r.total_primary = some 0 → q = none) := by
  obtain ⟨r', hr'mem, heq⟩ := List.mem_map.mp hmem
  rw [Prod.mk.injEq] at heq
  obtain ⟨rfl, rfl⟩ := heq
  refine ⟨?_, ?_, ?_⟩
  · intro p s hp hs hpos
    rw [hp, hs]
    simp [ratioFromTotals, hpos]
  · intro hno
    rcases htp : r'.total_primary with _ | p <;>
      rcases hts : r'.total_secondary with _ | s <;>
        simp [ratioFromTotals, htp, hts]
    exact not_lt.mp fun hpos => hno ⟨p, s, htp, hts, hpos⟩
  · intro h0
    rcases hts : r'.total_secondary with _ | s <;>
      simp [ratioFromTotals, h0, hts]

/-- Concrete instantiation of `aggregate_ratio_spec`: a row with totals
`total_primary = 2`, `total_secondary = 1` gets ratio `1/2`. -/
theorem aggregate_ratio_spec_witness :
    ratioFromTotals (some 2) (some 1) = some (1 / 2 : ℚ) := by
  have h := aggregate_ratio_spec [⟨"A", some 2, some 1⟩] ⟨"A", some 2, some 1⟩
    (ratioFromTotals (some 2) (some 1)) (by simp [addRatioColumn])
  exact h.1 2 1 rfl rfl (by norm_num)

/-- `_zscore` preserves the length of the series. -/
theorem zscore_length (s : List ℚ) : (_zscore s).length = s.length := by
  unfold _zscore
  split
  · simp [*]
  · split
    · simp
    · rw [List.length_map]

/-- C3: the fitter is total on its population — it yields exactly one result
(with real, hence finite, scores) per entity — and every entity whose series
has fewer than `minObservations` periods, or whose full regression does not
converge, takes the fallback: its raw estimates are its total count and its
OLS slope of count versus time index, its stored scores are the
population-standardized (`_zscore`) images of those raw columns at its
position, and it is marked `reliable = false`. -/
theorem fit_fallback_spec (cfg : FitConfig) (es : List EntitySeries) :
    (fit_priority_matrix cfg es).length = es.length ∧
    ∀ (i : ℕ) (hi : i < es.length),
      (es[i].counts.length < cfg.minObservations ∨ cfg.fullModel es[i] = none) →
      rawFit cfg es[i] = (totalCount es[i], olsSlope es[i].counts, false) ∧
      ∃ r : FitResult, (fit_priority_matrix cfg es)[i]? = some r ∧
        r.reliable = false ∧
        r.count = totalCount es[i] ∧
        (_zscore ((es.map (rawFit cfg)).map (fun p => p.1)))[i]? =
          some r.intercept_score ∧
        (_zscore ((es.map (rawFit cfg)).map (fun p => p.2.1)))[i]? =
          some r.slope_score := by
  constructor
  · simp [fit_priority_matrix, List.length_zipWith, zscore_length]
  · intro i hi hfb
    have hraw : rawFit cfg es[i] = (totalCount es[i], olsSlope es[i].counts, false) := by
      rcases hfb with h | h
      · simp [rawFit, h]
      · simp [rawFit, h]
    refine ⟨hraw, ?_⟩
    have hix : i < (_zscore ((es.map (rawFit cfg)).map (fun p => p.1))).length := by
      rw [zscore_length]; simpa using hi
    have hiy : i < (_zscore ((es.map (rawFit cfg)).map (fun p => p.2.1))).length := by
      rw [zscore_length]; simpa using hi
    refine ⟨{ entity := es[i].entity
              intercept_score := (_zscore ((es.map (rawFit cfg)).map (fun p => p.1))).get ⟨i, hix⟩
              slope_score := (_zscore ((es.map (rawFit cfg)).map (fun p => p.2.1))).get ⟨i, hiy⟩
              count := totalCount es[i]
              reliable := (rawFit cfg es[i]).2.2
              quadrant := classify
                ((_zscore ((es.map (rawFit cfg)).map (fun p => p.1))).get ⟨i, hix⟩)
                ((_zscore ((es.map (rawFit cfg)).map (fun p => p.2.1))).get ⟨i, hiy⟩) },
      ?_, by rw [hraw], rfl, ?_, ?_⟩
    · rw [fit_priority_matrix]
      rw [List.getElem?_zipWith]
      rw [show (es.zip (es.map (rawFit cfg)))[i]? = some (es[i], rawFit cfg es[i]) by
        simp [List.getElem?_zip_eq_some, List.getElem?_eq_getElem, hi]]
      rw [show ((_zscore ((es.map (rawFit cfg)).map (fun p => p.1))).zip
            (_zscore ((es.map (rawFit cfg)).map (fun p => p.2.1))))[i]? =
          some ((_zscore ((es.map (rawFit cfg)).map (fun p => p.1))).get ⟨i, hix⟩,
            (_zscore ((es.map (rawFit cfg)).map (fun p => p.2.1))).get ⟨i, hiy⟩) by
        simp [List.getElem?_zip_eq_some, List.getElem?_eq_getElem, hix, hiy]]
    · rw [List.getElem?_eq_getElem hix]
      simp [List.get_eq_getElem]
    · rw [List.getElem?_eq_getElem hiy]
      simp [List.get_eq_getElem]

/-- Concrete instantiation of `fit_fallback_spec`: two entities, each with
only two observed periods under `min_observations = 4` and a full model that
never converges; the first entity's result is present, unreliable, with
count `3` and both standardized scores `0`. -/
theorem fit_fallback_spec_witness :
    ∃ r : FitResult,
      (fit_priority_matrix ⟨4, fun _ => none⟩
        [⟨"A", [1, 2]⟩, ⟨"B", [1, 2]⟩])[0]? = some r ∧
      r.reliable = false ∧ r.count = 3 ∧
      r.intercept_score = 0 ∧ r.slope_score = 0 := by
  have h := (fit_fallback_spec ⟨4, fun _ => none⟩
      [⟨"A", [1, 2]⟩, ⟨"B", [1, 2]⟩]).2 0 (by norm_num) (Or.inl (by norm_num))
  obtain ⟨hraw, r, hget, hrel, hcount, hx, hy⟩ := h
  have hcolx : (([⟨"A", [1, 2]⟩, ⟨"B", [1, 2]⟩].map
      (rawFit ⟨4, fun _ => none⟩)).map (fun p => p.1)) = [3, 3] := by
    norm_num [rawFit, totalCount]
  have hcoly : (([⟨"A", [1, 2]⟩, ⟨"B", [1, 2]⟩].map
      (rawFit ⟨4, fun _ => none⟩)).map (fun p => p.2.1)) = [1, 1] := by
    norm_num [rawFit, olsSlope, List.range, List.range.loop]
  rw [hcolx] at hx
  rw [hcoly] at hy
  have hz3 : _zscore [3, 3] = [0, 0] := by
    have hv : popVar [3, 3] = 0 := by norm_num [popVar, popMean]
    have hsd : popStd [3, 3] = 0 := by rw [popStd, hv]; simp
    simp [_zscore, hsd]
  have hz1 : _zscore [1, 1] = [0, 0] := by
    have hv : popVar [1, 1] = 0 := by norm_num [popVar, popMean]
    have hsd : popStd [1, 1] = 0 := by rw [popStd, hv]; simp
    simp [_zscore, hsd]
  rw [hz3] at hx
  rw [hz1] at hy
  simp at hx hy
  refine ⟨r, hget, hrel, ?_, hx.symm, hy.symm⟩
  rw [hcount]
  norm_num [totalCount]

/-- C9: the public alias `fit` is the very same function as
`fit_priority_matrix`: on every input both produce identical results. -/
theorem fit_alias_spec :
    fit = fit_priority_matrix ∧
    ∀ (cfg : FitConfig) (es : List EntitySeries),
      fit cfg es = fit_priority_matrix cfg es :=
  ⟨rfl, fun _ _ => rfl⟩

/-- Every row of one entity's trajectory carries that entity's name and the
quadrant of the single full-window fit. -/
theorem trackEntity_fields (fitScores : List ℚ → ℚ × ℚ) (e : EntitySeries)
    (p : TrajectoryPoint) (hp : p ∈ trackEntity fitScores e) :
    p.entity = e.entity ∧
    p.global_quadrant = classify (fitScores e.counts).1 (fitScores e.counts).2 := by
  simp only [trackEntity] at hp
  obtain ⟨i, _, rfl⟩ := List.mem_map.mp hp
  exact ⟨rfl, rfl⟩

/-- C4: in a movement-tracking result whose input series have pairwise
distinct entity names, `global_quadrant` agrees on every pair of rows of the
same entity: it is computed once per entity from the full-window fit and is
constant along the trajectory. -/
theorem global_quadrant_constant (fitScores : List ℚ → ℚ × ℚ)
    (minTotalCount : ℚ) (es : List EntitySeries)
    (hnodup : (es.map EntitySeries.entity).Nodup) (p q : TrajectoryPoint)
    (hp : p ∈ track_cumulative_movement fitScores minTotalCount es)
    (hq : q ∈ track_cumulative_movement fitScores minTotalCount es)
    (he : p.entity = q.entity) :
    p.global_quadrant = q.global_quadrant := by
  obtain ⟨e₁, he₁, hp'⟩ := List.mem_flatMap.mp hp
  obtain ⟨e₂, he₂, hq'⟩ := List.mem_flatMap.mp hq
  obtain ⟨hpe, hpg⟩ := trackEntity_fields fitScores e₁ p hp'
  obtain ⟨hqe, hqg⟩ := trackEntity_fields fitScores e₂ q hq'
  have hmem₁ : e₁ ∈ es := List.mem_of_mem_filter he₁
  have hmem₂ : e₂ ∈ es := List.mem_of_mem_filter he₂
  have : e₁ = e₂ := by
    refine List.inj_on_of_nodup_map hnodup hmem₁ hmem₂ ?_
    rw [← hpe, ← hqe, he]
  rw [hpg, hqg, this]

/-- Concrete instantiation of `global_quadrant_constant`: with the cumulative
fit `l ↦ (sum l, sum l)` and a single entity over two periods, the two
trajectory rows share the same `global_quadrant`. -/
theorem global_quadrant_constant_witness :
    (TrajectoryPoint.mk "A" 0 1 1 Quadrant.Q1 1 1 Quadrant.Q1).global_quadrant =
      (TrajectoryPoint.mk "A" 1 3 3 Quadrant.Q1 2 3 Quadrant.Q1).global_quadrant := by
  have htrack : track_cumulative_movement (fun l => (l.sum, l.sum)) 0 [⟨"A", [1, 2]⟩] =
      [⟨"A", 0, 1, 1, Quadrant.Q1, 1, 1, Quadrant.Q1⟩,
        ⟨"A", 1, 3, 3, Quadrant.Q1, 2, 3, Quadrant.Q1⟩] := by
    norm_num [track_cumulative_movement, trackEntity, totalCount, classify,
      List.range_succ, List.filter]
  exact global_quadrant_constant (fun l => (l.sum, l.sum)) 0 [⟨"A", [1, 2]⟩]
    (by simp) _ _
    (by rw [htrack]; exact List.mem_cons_self _ _)
    (by rw [htrack]; exact List.mem_cons_of_mem _ (List.mem_cons_self _ _)) rfl

/-- A pair drawn from `l.zip l.tail` is a pair of adjacent elements of `l`. -/
theorem mem_zip_tail {α : Type} {l : List α} {p : α × α} (h : p ∈ l.zip l.tail) :
    ∃ i, l[i]? = some p.1 ∧ l[i + 1]? = some p.2 := by
  induction l with
  | nil => simp at h
  | cons x xs ih =>
    cases xs with
    | nil => simp at h
    | cons y ys =>
      simp only [List.tail_cons, List.zip_cons_cons] at h
      rcases List.mem_cons.mp h with h0 | h1
      · exact ⟨0, by simp [h0], by simp [h0]⟩
      · obtain ⟨i, hi1, hi2⟩ := ih (by simpa using h1)
        exact ⟨i + 1, by simpa using hi1, by simpa using hi2⟩

/-- C5: every Transition emitted by the extractor has
`from_quadrant ≠ to_quadrant`, and its two period labels come from two
adjacent rows of one input trajectory whose quadrants are exactly those of
the transition — hence no transition arises from two consecutive periods
with the same quadrant. -/
theorem transitions_spec (trajectories : List (List TrajectoryPoint))
    (t : Transition) (ht : t ∈ extract_transitions trajectories) :
    t.from_quadrant ≠ t.to_quadrant ∧
    ∃ rows ∈ trajectories, ∃ i a b,
      rows[i]? = some a ∧ rows[i + 1]? = some b ∧
      a.period_quadrant = t.from_quadrant ∧ b.period_quadrant = t.to_quadrant ∧
      a.period = t.from_quarter ∧ b.period = t.to_quarter ∧
      b.entity = t.entity := by
  obtain ⟨rows, hrows, ht'⟩ := List.mem_flatMap.mp ht
  simp only [entityTransitions] at ht'
  obtain ⟨ab, hab, hsome⟩ := List.mem_filterMap.mp ht'
  by_cases hne : ab.1.period_quadrant ≠ ab.2.period_quadrant
  · rw [if_pos hne] at hsome
    obtain rfl := Option.some.inj hsome
    obtain ⟨i, h1, h2⟩ := mem_zip_tail hab
    exact ⟨hne, rows, hrows, i, ab.1, ab.2, h1, h2, rfl, rfl, rfl, rfl, rfl⟩
  · rw [if_neg hne] at hsome
    cases hsome

/-- Concrete instantiation of `transitions_spec`: a two-row trajectory moving
from Q1 to Q2 emits a transition whose quadrants differ. -/
theorem transitions_spec_witness :
    (Transition.mk "A" 0 1 Quadrant.Q1 Quadrant.Q2).from_quadrant ≠
      (Transition.mk "A" 0 1 Quadrant.Q1 Quadrant.Q2).to_quadrant :=
  (transitions_spec
    [[⟨"A", 0, 1, 1, Quadrant.Q1, 1, 1, Quadrant.Q1⟩,
      ⟨"A", 1, -1, 1, Quadrant.Q2, 1, 2, Quadrant.Q1⟩]]
    (Transition.mk "A" 0 1 Quadrant.Q1 Quadrant.Q2) (by decide)).1

/-- Sums distribute over a pointwise difference of integer-valued maps. -/
theorem sum_map_sub {α : Type} (l : List α) (f g : α → ℤ) :
    (l.map (fun a => f a - g a)).sum = (l.map f).sum - (l.map g).sum := by
  induction l with
  | nil => simp
  | cons x xs ih =>
    simp only [List.map_cons, List.sum_cons, ih]
    ring

/-- Casting a natural-valued map sum to `ℤ` commutes with the sum. -/
theorem sum_map_natCast {α : Type} (l : List α) (f : α → ℕ) :
    (l.map (fun a => (f a : ℤ))).sum = ((l.map f).sum : ℤ) := by
  induction l with
  | nil => simp
  | cons x xs ih => simp [ih]

/-- Sums distribute over a pointwise sum of natural-valued maps. -/
theorem sum_map_add {α : Type} (l : List α) (f g : α → ℕ) :
    (l.map (fun a => f a + g a)).sum = (l.map f).sum + (l.map g).sum := by
  induction l with
  | nil => simp
  | cons x xs ih =>
    simp only [List.map_cons, List.sum_cons, ih]
    ring

/-- Over a duplicate-free key list containing `a`, the indicator of `a`
sums to one. -/
theorem sum_indicator_nodup {β : Type} [DecidableEq β] (vs : List β) (a : β)
    (hnd : vs.Nodup) (ha : a ∈ vs) :
    (vs.map (fun v => if a = v then 1 else 0)).sum = 1 := by
  induction vs with
  | nil => simp at ha
  | cons v vs ih =>
    have hnotin : v ∉ vs := (List.nodup_cons.mp hnd).1
    rcases List.mem_cons.mp ha with rfl | hmem
    · have hz : (vs.map (fun w => if a = w then (1 : ℕ) else 0)).sum = 0 := by
        apply List.sum_eq_zero
        intro x hx
        obtain ⟨w, hw, rfl⟩ := List.mem_map.mp hx
        have haw : a ≠ w := by
          intro h
          subst h
          exact hnotin hw
        exact if_neg haw
      simp [hz]
    · have hne : a ≠ v := fun h => hnotin (h ▸ hmem)
      simp [hne, ih (List.nodup_cons.mp hnd).2 hmem]

/-- Counting a list of events once per key of a duplicate-free key list that
covers it partitions the list's length. -/
theorem sum_countP_key {β : Type} [DecidableEq β] (key : Event → β)
    (l : List Event) (vs : List β) (hnd : vs.Nodup)
    (hcov : ∀ e ∈ l, key e ∈ vs) :
    (vs.map (fun v => l.countP (fun ev => key ev = v))).sum = l.length := by
  induction l with
  | nil => simp
  | cons e l ih =>
    have hcov' : ∀ x ∈ l, key x ∈ vs := fun x hx =>
      hcov x (List.mem_cons_of_mem _ hx)
    have he : key e ∈ vs := hcov e (List.mem_cons_self _ _)
    have hstep : (vs.map (fun v => (e :: l).countP (fun ev => key ev = v))).sum =
        (vs.map (fun v =>
          l.countP (fun ev => key ev = v) + if key e = v then 1 else 0)).sum := by
      congr 1
      apply List.map_congr_left
      intro v _
      rw [List.countP_cons]
      simp
    rw [hstep, sum_map_add, ih hcov', sum_indicator_nodup vs (key e) hnd he]
    simp

/-- A bin index returned by `binIndex` is a valid bin position. -/
theorem binIndex_lt (edges : List ℚ) (x : ℚ) (i : ℕ)
    (h : binIndex edges x = some i) : i < edges.length - 1 := by
  unfold binIndex at h
  simpa using List.mem_of_find?_eq_some h

/-- C6: in every driver report, the categorical per-value deltas over all
values of the dimension sum exactly to the window pair's total count delta;
and whenever the shared bin edges cover every event of both windows, the
numeric per-bin deltas sum to that same total count delta. -/
theorem driver_delta_sum (events : List Event) (entity pfrom pto : String)
    (edges : List ℚ) :
    ((driverCore events entity pfrom pto edges).cat_drivers.map Prod.snd).sum =
      (driverCore events entity pfrom pto edges).count_delta ∧
    ((∀ ev ∈ windowEvents events entity pfrom ++ windowEvents events entity pto,
        (binIndex edges ev.num).isSome) →
      ((driverCore events entity pfrom pto edges).num_drivers.map Prod.snd).sum =
        (driverCore events entity pfrom pto edges).count_delta) := by
  have hnd : (catValues (windowEvents events entity pfrom)
      (windowEvents events entity pto)).Nodup := List.nodup_dedup _
  have hcovf : ∀ e ∈ windowEvents events entity pfrom,
      e.cat ∈ catValues (windowEvents events entity pfrom)
        (windowEvents events entity pto) := fun e he =>
    List.mem_dedup.mpr (List.mem_map_of_mem _ (List.mem_append_left _ he))
  have hcovt : ∀ e ∈ windowEvents events entity pto,
      e.cat ∈ catValues (windowEvents events entity pfrom)
        (windowEvents events entity pto) := fun e he =>
    List.mem_dedup.mpr (List.mem_map_of_mem _ (List.mem_append_right _ he))
  constructor
  · simp only [driverCore, List.map_map]
    unfold catDelta
    rw [show ((fun p : String × ℤ => p.2) ∘ fun v =>
        (v, (List.countP (fun ev => ev.cat = v)
            (windowEvents events entity pto) : ℤ) -
          (List.countP (fun ev => ev.cat = v)
            (windowEvents events entity pfrom) : ℤ))) = fun v =>
        ((List.countP (fun ev => ev.cat = v)
            (windowEvents events entity pto) : ℤ) -
          (List.countP (fun ev => ev.cat = v)
            (windowEvents events entity pfrom) : ℤ)) from rfl]
    rw [sum_map_sub, sum_map_natCast, sum_map_natCast]
    rw [sum_countP_key Event.cat (windowEvents events entity pto) _ hnd hcovt]
    rw [sum_countP_key Event.cat (windowEvents events entity pfrom) _ hnd hcovf]
  · intro hcov
    have hkey : ∀ l : List Event, (∀ e ∈ l, (binIndex edges e.num).isSome) →
        ((List.range (edges.length - 1)).map
          (fun i => l.countP (fun ev => binIndex edges ev.num = some i))).sum =
        l.length := by
      intro l hl
      have hnd' : ((List.range (edges.length - 1)).map
          (some : ℕ → Option ℕ)).Nodup :=
        (List.nodup_range _).map (Option.some_injective ℕ)
      have hcovl : ∀ e ∈ l,
          binIndex edges e.num ∈
            (List.range (edges.length - 1)).map (some : ℕ → Option ℕ) := by
        intro e he
        obtain ⟨j, hj⟩ := Option.isSome_iff_exists.mp (hl e he)
        rw [hj]
        exact List.mem_map_of_mem _
          (List.mem_range.mpr (binIndex_lt edges e.num j hj))
      have hs := sum_countP_key (fun ev => binIndex edges ev.num) l _ hnd' hcovl
      rw [List.map_map] at hs
      simpa [Function.comp] using hs
    simp only [driverCore, List.map_map]
    unfold binDelta
    rw [show ((fun p : ℕ × ℤ => p.2) ∘ fun i =>
        (i, (List.countP (fun ev => binIndex edges ev.num = some i)
            (windowEvents events entity pto) : ℤ) -
          (List.countP (fun ev => binIndex edges ev.num = some i)
            (windowEvents events entity pfrom) : ℤ))) = fun i =>
        ((List.countP (fun ev => binIndex edges ev.num = some i)
            (windowEvents events entity pto) : ℤ) -
          (List.countP (fun ev => binIndex edges ev.num = some i)
            (windowEvents events entity pfrom) : ℤ)) from rfl]
    rw [sum_map_sub, sum_map_natCast, sum_map_natCast]
    rw [hkey (windowEvents events entity pto)
      (fun e he => hcov e (List.mem_append_right _ he))]
    rw [hkey (windowEvents events entity pfrom)
      (fun e he => hcov e (List.mem_append_left _ he))]

/-- Concrete instantiation of `driver_delta_sum`: one entity's windows with
counts 1 and 2 and edges `[0, 10]` covering all events; both the categorical
and the numeric breakdowns sum to the total delta. -/
theorem driver_delta_sum_witness :
    ((driverCore [⟨"A", "P1", "u", 5⟩, ⟨"A", "P2", "u", 5⟩, ⟨"A", "P2", "w", 7⟩]
        "A" "P1" "P2" [0, 10]).cat_drivers.map Prod.snd).sum =
      (driverCore [⟨"A", "P1", "u", 5⟩, ⟨"A", "P2", "u", 5⟩, ⟨"A", "P2", "w", 7⟩]
        "A" "P1" "P2" [0, 10]).count_delta ∧
    ((driverCore [⟨"A", "P1", "u", 5⟩, ⟨"A", "P2", "u", 5⟩, ⟨"A", "P2", "w", 7⟩]
        "A" "P1" "P2" [0, 10]).num_drivers.map Prod.snd).sum =
      (driverCore [⟨"A", "P1", "u", 5⟩, ⟨"A", "P2", "u", 5⟩, ⟨"A", "P2", "w", 7⟩]
        "A" "P1" "P2" [0, 10]).count_delta := by
  have h := driver_delta_sum
    [⟨"A", "P1", "u", 5⟩, ⟨"A", "P2", "u", 5⟩, ⟨"A", "P2", "w", 7⟩]
    "A" "P1" "P2" [0, 10]
  exact ⟨h.1, h.2 (by decide)⟩

/-- C7: the driver-attribution entry point produces identical DriverAnalysis
output whether the window pair is passed under the legacy
`quarter_from`/`quarter_to` names or the current `period_from`/`period_to`
names, all other arguments fixed. -/
theorem drivers_backcompat (events : List Event) (entity a b : String)
    (edges : List ℚ) :
    extract_transition_drivers events entity none none (some a) (some b) edges =
      extract_transition_drivers events entity (some a) (some b) none none
        edges := rfl

/-- C8: example data generation is deterministic under an explicit seed.  In
the embedding every random draw flows through generator states produced by
`ops.mkGen seed` from the explicit `seed` argument — `generate_incidents_csv`
is a pure function of exactly `(n_tickets, start_day, end_day, seed)` and the
fixed generator semantics, with no other (global) state to consult — so two
runs with the same arguments, each constructing its own generators, produce
element-wise identical ticket tables. -/
theorem generate_incidents_deterministic {σ : Type} (ops : RngSpec σ)
    (env : GenEnv) (n_tickets start_day end_day seed : ℕ) :
    generate_incidents_csv ops env n_tickets start_day end_day seed =
      generate_incidents_csv ops env n_tickets start_day end_day seed ∧
    ∀ i : ℕ,
      (generate_incidents_csv ops env n_tickets start_day end_day seed)[i]? =
        (generate_incidents_csv ops env n_tickets start_day end_day seed)[i]? :=
  ⟨rfl, fun _ => rfl⟩

end PriorityX
